import Mathlib

/-!
Shallow embedding of the booking-scheduling core of the dentalsuite rental
manager, together with theorems checking the specification's claims about it.

Instants (JavaScript `Date` values, ISO-8601 strings in SQL) are modelled as
integers (milliseconds since the epoch); ISO-8601 UTC strings produced by
`Date.prototype.toISOString` compare lexicographically exactly as the instants
they denote, so string comparison in SQL and `Date` comparison in JS are both
the integer order.  Identifiers are strings, as in the source (UUIDs).
-/

namespace DentalSuite

/-- Apartment record as held by the store and the `apartments` table
(`properties` is irrelevant to every scheduling claim and omitted). -/
structure Apartment where
  id : String
  name : String
  isFavorite : Bool
deriving Repr, DecidableEq

/-- Booking record: `apartmentId`/`temporaryApartment` are `NULL`-able columns
(frontend `undefined`), modelled as `Option`. -/
structure Booking where
  id : String
  guestName : String
  checkIn : Int
  checkOut : Int
  apartmentId : Option String := none
  temporaryApartment : Option String := none
deriving Repr, DecidableEq

/-- date-fns `areIntervalsOverlapping` with the default (non-inclusive)
options, as called in `getAvailableApartments` (src/store/index.ts): each
interval's endpoints are sorted, then the half-open intersection test
`leftStart < rightEnd && rightStart < leftEnd` is applied. -/
def areIntervalsOverlapping (aS aE bS bE : Int) : Bool :=
  decide (min aS aE < max bS bE) && decide (min bS bE < max aS aE)

/-- The SQL conflict predicate shared by the create, update and
available-apartments routes (server/routes/bookings.js):
`((check_in <= ? AND check_out > ?) OR (check_in < ? AND check_out >= ?))`
with parameters `[start, start, end, end]` of the proposed range. -/
def sqlConflict (ci co s e : Int) : Bool :=
  (decide (ci ≤ s) && decide (s < co)) || (decide (ci < e) && decide (e ≤ co))

/-- Stable insertion: `a` is placed before the first element `b` with
`le a b = true`.  Together with `sortBy` this models ECMAScript
`Array.prototype.sort` (specified stable since ES2019) run with a comparator
whose induced weak order is `le`: for any such comparator the stable sorted
output is unique, so any stable algorithm is a faithful model. -/
def insertBy (le : α → α → Bool) (a : α) : List α → List α
  | [] => [a]
  | b :: bs => if le a b then a :: b :: bs else b :: insertBy le a bs

/-- Stable sort by `le` (model of `Array.prototype.sort`). -/
def sortBy (le : α → α → Bool) (l : List α) : List α :=
  l.foldr (insertBy le) []

/-- Order induced by the store's favorites comparator
`(a, b) => a.isFavorite && !b.isFavorite ? -1 : !a.isFavorite && b.isFavorite ? 1 : 0`:
`a` need not come after `b` exactly when `a` is favorite or `b` is not. -/
def favLe (a b : Apartment) : Bool :=
  a.isFavorite || !b.isFavorite

/-- Order induced by the auto-assigner's comparator
`(a, b) => a.checkIn.getTime() - b.checkIn.getTime()`. -/
def checkInLe (a b : Booking) : Bool :=
  decide (a.checkIn ≤ b.checkIn)

/-- Order of the server route's `ORDER BY is_favorite DESC, name ASC`. -/
def serverApartmentLe (a b : Apartment) : Bool :=
  (a.isFavorite && !b.isFavorite) || ((a.isFavorite == b.isFavorite) && decide (a.name ≤ b.name))

/-- One booking's `[checkIn, checkOut)` against the queried `[start, end)`,
as in the `some` callback of `getAvailableApartments`. -/
def bookingOverlapsRange (start stop : Int) (b : Booking) : Bool :=
  areIntervalsOverlapping b.checkIn b.checkOut start stop

/-- The per-apartment availability test of the store's
`getAvailableApartments`: no booking with this `apartmentId` overlaps the
queried range. -/
def isApartmentAvailable (bks : List Booking) (start stop : Int) (a : Apartment) : Bool :=
  !((bks.filter (fun b => b.apartmentId == some a.id)).any (bookingOverlapsRange start stop))

/-- The store's `getAvailableApartments(checkIn, checkOut)`: filter the
apartments by availability, then sort with the favorites comparator. -/
def getAvailableApartments (apts : List Apartment) (bks : List Booking)
    (start stop : Int) : List Apartment :=
  sortBy favLe (apts.filter (isApartmentAvailable bks start stop))

/-- Effect on the booking list of the store's `updateBooking(id, { apartmentId })`
round trip as performed by the auto-assign loop: the matching booking's
`apartmentId` is set, every other field is echoed back unchanged. -/
def assignBooking (bks : List Booking) (i aptId : String) : List Booking :=
  bks.map (fun b => if b.id == i then { b with apartmentId := some aptId } else b)

/-- State threaded through the auto-assign loop: the store's booking list plus
the two counters reported in the completion toast. -/
structure AssignResult where
  bookings : List Booking
  assignedCount : Nat
  failedCount : Nat
deriving Repr, DecidableEq

/-- One iteration of the `autoAssignBookings` loop (AssignPage):
recompute availability against the current store, pick
`availableApts.find(apt => apt.isFavorite) || availableApts[0]`,
commit the assignment, else count a failure. -/
def autoAssignStep (apts : List Apartment) (st : AssignResult) (b : Booking) : AssignResult :=
  match getAvailableApartments apts st.bookings b.checkIn b.checkOut with
  | [] => { st with failedCount := st.failedCount + 1 }
  | first :: rest =>
    let target := ((first :: rest).find? (fun ap => ap.isFavorite)).getD first
    { bookings := assignBooking st.bookings b.id target.id
      assignedCount := st.assignedCount + 1
      failedCount := st.failedCount }

/-- The unassigned-bookings selection of AssignPage:
`bookings.filter(b => !b.apartmentId && !b.temporaryApartment)`. -/
def unassignedFilter (bks : List Booking) : List Booking :=
  bks.filter (fun b => b.apartmentId == none && b.temporaryApartment == none)

/-- The whole `autoAssignBookings` run: sort the unassigned queue by check-in
(stable) and fold the assignment step over it. -/
def autoAssignBookings (apts : List Apartment) (bks : List Booking) : AssignResult :=
  (sortBy checkInLe (unassignedFilter bks)).foldl (autoAssignStep apts) ⟨bks, 0, 0⟩

/-- The day filter of `BestDatesRecommendation`:
`day >= bookingStart && day <= bookingEnd` over the full booking list;
`dayBookingsCount` is `dayBookings.length`. -/
def dayBookingsCount (bks : List Booking) (day : Int) : Nat :=
  (bks.filter (fun b => decide (b.checkIn ≤ day) && decide (day ≤ b.checkOut))).length

/-- `totalOccupancy` accumulation of `BestDatesRecommendation`
(`stayDays.forEach(... totalOccupancy += dayBookings.length)`). -/
def totalOccupancy (bks : List Booking) (stayDays : List Int) : Nat :=
  stayDays.foldl (fun acc day => acc + dayBookingsCount bks day) 0

/-- Persistent server state: the `apartments` and `bookings` tables. -/
structure ServerState where
  apartments : List Apartment
  bookings : List Booking
deriving Repr, DecidableEq

/-- Errors of `POST /bookings` (the 400/409/404 responses of the route). -/
inductive CreateError where
  | invalidDates
  | conflict (b : Booking)
  | apartmentNotFound
deriving Repr, DecidableEq

/-- `POST /bookings` (server/routes/bookings.js): reject `checkOut <= checkIn`;
when an apartment is named, reject if `dbGet` finds an existing booking on it
satisfying `sqlConflict`, then require the apartment to exist; otherwise
insert.  `id` is the externally generated UUID. -/
def createBooking (st : ServerState) (i guest : String) (ci co : Int)
    (aptId tmp : Option String) : Except CreateError ServerState :=
  if co ≤ ci then .error .invalidDates
  else
    match aptId with
    | some a =>
      match st.bookings.find? (fun b => b.apartmentId == some a && sqlConflict b.checkIn b.checkOut ci co) with
      | some c => .error (.conflict c)
      | none =>
        match st.apartments.find? (fun ap => ap.id == a) with
        | none => .error .apartmentNotFound
        | some _ => .ok { st with bookings := st.bookings ++ [⟨i, guest, ci, co, aptId, tmp⟩] }
    | none => .ok { st with bookings := st.bookings ++ [⟨i, guest, ci, co, aptId, tmp⟩] }

/-- Errors of `PUT /bookings/:id`. -/
inductive UpdateError where
  | notFound
  | invalidDates
  | conflict (b : Booking)
  | noValidFields
deriving Repr, DecidableEq

/-- Request body of `PUT /bookings/:id`: a field is `none` when absent
(`undefined`).  For the nullable columns the inner `Option` is the stored
value, so `some none` is an explicit `null` (clearing the column). -/
structure BookingUpdate where
  guestName : Option String := none
  checkIn : Option Int := none
  checkOut : Option Int := none
  apartmentId : Option (Option String) := none
  temporaryApartment : Option (Option String) := none
deriving Repr, DecidableEq

/-- The `updateFields` accumulation: a field is written iff it was present
(`!== undefined`) in the request body. -/
def applyUpdates (old : Booking) (u : BookingUpdate) : Booking :=
  { old with
    guestName := u.guestName.getD old.guestName
    checkIn := u.checkIn.getD old.checkIn
    checkOut := u.checkOut.getD old.checkOut
    apartmentId := u.apartmentId.getD old.apartmentId
    temporaryApartment := u.temporaryApartment.getD old.temporaryApartment }

/-- `updateFields.length === 0` test of the update route. -/
def hasUpdateField (u : BookingUpdate) : Bool :=
  u.guestName.isSome || u.checkIn.isSome || u.checkOut.isSome ||
    u.apartmentId.isSome || u.temporaryApartment.isSome

/-- `PUT /bookings/:id` (server/routes/bookings.js): look the booking up; only
`if (updates.check_in || updates.check_out)` validate the merged dates and run
the overlap query (`apartment_id = ? AND id != ? AND sqlConflict`); then apply
whichever fields were present.  When no date field is supplied, the overlap
check is skipped entirely. -/
def updateBookingRoute (st : ServerState) (i : String) (u : BookingUpdate) :
    Except UpdateError ServerState :=
  match st.bookings.find? (fun b => b.id == i) with
  | none => .error .notFound
  | some old =>
    let commit : Except UpdateError ServerState :=
      if hasUpdateField u then
        .ok { st with bookings := st.bookings.map (fun b => if b.id == i then applyUpdates b u else b) }
      else .error .noValidFields
    if u.checkIn.isSome || u.checkOut.isSome then
      let newCi := u.checkIn.getD old.checkIn
      let newCo := u.checkOut.getD old.checkOut
      if newCo ≤ newCi then .error .invalidDates
      else
        match (match u.apartmentId with | some v => v | none => old.apartmentId) with
        | some a =>
          match st.bookings.find? (fun b => b.apartmentId == some a && !(b.id == i) && sqlConflict b.checkIn b.checkOut newCi newCo) with
          | some c => .error (.conflict c)
          | none => commit
        | none => commit
    else commit

/-- One element of a `POST /bookings/batch` body, with its generated UUID. -/
structure BatchItem where
  id : String
  guestName : String
  checkIn : Int
  checkOut : Int
  apartmentId : Option String := none
deriving Repr, DecidableEq

/-- `POST /bookings/batch`: per item, `continue` (silently skip) when
`checkOut <= checkIn`, otherwise insert with NO overlap or existence check;
returns the new state and the ids reported in `createdBookings`. -/
def batchCreateBookings (st : ServerState) (items : List BatchItem) :
    ServerState × List String :=
  items.foldl
    (fun acc it =>
      if it.checkOut ≤ it.checkIn then acc
      else ({ acc.1 with bookings := acc.1.bookings ++ [⟨it.id, it.guestName, it.checkIn, it.checkOut, it.apartmentId, none⟩] },
            acc.2 ++ [it.id]))
    (st, [])

/-- `POST /bookings/available-apartments`: all apartments ordered by
`is_favorite DESC, name ASC`, minus those whose id occurs among bookings with
a non-null `apartment_id` satisfying `sqlConflict`.  The route performs no
`check_out > check_in` validation and has no failure path. -/
def serverAvailable (st : ServerState) (ci co : Int) : List Apartment :=
  let unavailableIds :=
    st.bookings.filterMap (fun b => if sqlConflict b.checkIn b.checkOut ci co then b.apartmentId else none)
  (sortBy serverApartmentLe st.apartments).filter (fun a => !(unavailableIds.contains a.id))

/-- Payload of the store's `updateBooking` (src/store/index.ts): each field is
dropped from the request when `undefined`; the store can therefore set
`apartment_id`/`temporary_apartment` but can never send `null` to clear them. -/
structure StorePatch where
  guestName : Option String := none
  checkIn : Option Int := none
  checkOut : Option Int := none
  apartmentId : Option String := none
  temporaryApartment : Option String := none
deriving Repr, DecidableEq

/-- The store's `updateBooking`: build `updateData` by the `!== undefined`
filtering and issue the `PUT`. -/
def storeUpdateBooking (st : ServerState) (i : String) (p : StorePatch) :
    Except UpdateError ServerState :=
  updateBookingRoute st i
    { guestName := p.guestName
      checkIn := p.checkIn
      checkOut := p.checkOut
      apartmentId := p.apartmentId.map some
      temporaryApartment := p.temporaryApartment.map some }

/-- `handleConfirmAssign`, regular branch: `updateBooking(id, { apartmentId,
temporaryApartment: undefined })` — the `undefined` clear is filtered out by
the store before the request is sent. -/
def handleConfirmAssignApartment (st : ServerState) (bookingId aptId : String) :
    Except UpdateError ServerState :=
  storeUpdateBooking st bookingId { apartmentId := some aptId }

/-- `handleConfirmAssign`, temporary branch: `updateBooking(id,
{ temporaryApartment, apartmentId: undefined })`, same filtering. -/
def handleConfirmAssignTemporary (st : ServerState) (bookingId tmpName : String) :
    Except UpdateError ServerState :=
  storeUpdateBooking st bookingId { temporaryApartment := some tmpName }

/-- Projection of a booking onto every field the assignment loop never
touches; used to trace bookings through a batch run. -/
def bookingCore (b : Booking) : String × String × Int × Int × Option String :=
  (b.id, b.guestName, b.checkIn, b.checkOut, b.temporaryApartment)

/-- A same-apartment overlap already present in the booking list `bks0`,
between the bookings with ids `i1` and `i2` on apartment `x`. -/
def ConflictWitness (bks0 : List Booking) (i1 i2 x : String) : Prop :=
  ∃ c1, c1 ∈ bks0 ∧ ∃ c2, c2 ∈ bks0 ∧ c1.id = i1 ∧ c2.id = i2 ∧
    c1.apartmentId = some x ∧ c2.apartmentId = some x ∧
    areIntervalsOverlapping c1.checkIn c1.checkOut c2.checkIn c2.checkOut = true

/-- Every same-apartment overlap of the list `l` traces back (by booking id)
to an overlap already present in `bks0`: the transition from `bks0` to `l`
created no new double-booking. -/
def NoNewConflicts (bks0 l : List Booking) : Prop :=
  ∀ x : String, ∀ b1 b2 : Booking, b1 ∈ l → b2 ∈ l → b1.id ≠ b2.id →
    b1.apartmentId = some x → b2.apartmentId = some x →
    areIntervalsOverlapping b1.checkIn b1.checkOut b2.checkIn b2.checkOut = true →
    ConflictWitness bks0 b1.id b2.id x

/-! ### Generic facts about the stable-sort model -/

theorem mem_insertBy {le : α → α → Bool} {a x : α} {l : List α} :
    x ∈ insertBy le a l ↔ x = a ∨ x ∈ l := by
  induction l with
  | nil => simp [insertBy]
  | cons b bs ih =>
    simp only [insertBy]
    split
    · simp [List.mem_cons]
    · simp [List.mem_cons, ih]; tauto

theorem insertBy_perm (le : α → α → Bool) (a : α) (l : List α) :
    List.Perm (insertBy le a l) (a :: l) := by
  induction l with
  | nil => simp [insertBy]
  | cons b bs ih =>
    simp only [insertBy]
    split
    · exact .refl _
    · exact (ih.cons b).trans (List.Perm.swap a b bs)

theorem sortBy_perm (le : α → α → Bool) (l : List α) : List.Perm (sortBy le l) l := by
  induction l with
  | nil => exact .refl _
  | cons a l ih => exact (insertBy_perm le a (sortBy le l)).trans (ih.cons a)

theorem mem_sortBy {le : α → α → Bool} {x : α} {l : List α} :
    x ∈ sortBy le l ↔ x ∈ l :=
  (sortBy_perm le l).mem_iff

theorem pairwise_insertBy {le : α → α → Bool}
    (htot : ∀ x y, le x y = false → le y x = true)
    (htrans : ∀ x y z, le x y = true → le y z = true → le x z = true)
    (a : α) {l : List α} (h : l.Pairwise (fun x y => le x y = true)) :
    (insertBy le a l).Pairwise (fun x y => le x y = true) := by
  induction l with
  | nil => simp [insertBy]
  | cons b bs ih =>
    rw [List.pairwise_cons] at h
    simp only [insertBy]
    split
    · rename_i hab
      refine List.pairwise_cons.mpr ⟨?_, List.pairwise_cons.mpr h⟩
      intro y hy
      rcases List.mem_cons.mp hy with rfl | hy
      · exact hab
      · exact htrans a b y hab (h.1 y hy)
    · rename_i hab
      refine List.pairwise_cons.mpr ⟨?_, ih h.2⟩
      intro y hy
      rcases mem_insertBy.mp hy with rfl | hy
      · exact htot _ _ (Bool.eq_false_iff.mpr hab)
      · exact h.1 y hy

theorem pairwise_sortBy {le : α → α → Bool}
    (htot : ∀ x y, le x y = false → le y x = true)
    (htrans : ∀ x y z, le x y = true → le y z = true → le x z = true)
    (l : List α) : (sortBy le l).Pairwise (fun x y => le x y = true) := by
  induction l with
  | nil => simp [sortBy]
  | cons a l ih => exact pairwise_insertBy htot htrans a ih

/-- Stability of the check-in sort: inserting `b` does not disturb the
relative order of bookings sharing any fixed check-in instant. -/
theorem filter_insertBy_checkIn (b : Booking) (l : List Booking) (t : Int) :
    (insertBy checkInLe b l).filter (fun x => decide (x.checkIn = t)) =
      if b.checkIn = t then b :: l.filter (fun x => decide (x.checkIn = t))
      else l.filter (fun x => decide (x.checkIn = t)) := by
  induction l with
  | nil => by_cases hb : b.checkIn = t <;> simp [insertBy, List.filter_cons, hb]
  | cons c cs ih =>
    simp only [insertBy]
    by_cases hle : checkInLe b c = true
    · simp only [hle, if_true]
      by_cases hb : b.checkIn = t <;> simp [List.filter_cons, hb]
    · have hlt : c.checkIn < b.checkIn := by
        simpa [checkInLe, not_le] using hle
      simp only [hle, if_false]
      by_cases hb : b.checkIn = t
      · have hc : ¬ c.checkIn = t := by omega
        simp [List.filter_cons, hb, hc, ih]
      · by_cases hc : c.checkIn = t <;> simp [List.filter_cons, hb, hc, ih]

/-- The check-in sort is stable: bookings with equal check-in keep their
input order. -/
theorem sortBy_checkIn_stable (l : List Booking) (t : Int) :
    (sortBy checkInLe l).filter (fun x => decide (x.checkIn = t)) =
      l.filter (fun x => decide (x.checkIn = t)) := by
  induction l with
  | nil => rfl
  | cons b bs ih =>
    show (insertBy checkInLe b (sortBy checkInLe bs)).filter _ = _
    rw [filter_insertBy_checkIn]
    by_cases hb : b.checkIn = t <;> simp [List.filter_cons, hb, ih]

/-- The check-in sort orders bookings by ascending `checkIn`. -/
theorem sortBy_checkIn_sorted (l : List Booking) :
    (sortBy checkInLe l).Pairwise (fun p q => p.checkIn ≤ q.checkIn) := by
  have h := @pairwise_sortBy Booking checkInLe
    (fun x y hxy => by
      simp only [checkInLe, decide_eq_false_iff_not, not_le] at hxy
      simp only [checkInLe, decide_eq_true_eq]; omega)
    (fun x y z hxy hyz => by
      simp only [checkInLe, decide_eq_true_eq] at *; omega) l
  exact h.imp (fun {p q} hpq => by simpa [checkInLe] using hpq)

/-- Inserting a non-favorite with the favorites comparator walks past any
favorites-only block and lands in front of the non-favorite block. -/
theorem insertBy_favLe_nonfav {a : Apartment} (ha : a.isFavorite = false)
    {ff nn : List Apartment} (hff : ∀ b ∈ ff, b.isFavorite = true)
    (hnn : ∀ b ∈ nn, b.isFavorite = false) :
    insertBy favLe a (ff ++ nn) = ff ++ a :: nn := by
  induction ff with
  | nil =>
    cases nn with
    | nil => simp [insertBy]
    | cons n ns =>
      have hn : n.isFavorite = false := hnn n (by simp)
      simp [insertBy, favLe, ha, hn]
  | cons f fs ih =>
    have hf : f.isFavorite = true := hff f (by simp)
    have hcond : favLe a f = false := by simp [favLe, ha, hf]
    simp only [List.cons_append, insertBy, hcond, Bool.false_eq_true, if_false,
      List.append_eq]
    rw [ih (fun b hb => hff b (by simp [hb]))]

/-- The favorites sort is exactly the stable partition by `isFavorite`:
favorites first, each block in input order. -/
theorem sortBy_favLe_partition (l : List Apartment) :
    sortBy favLe l = l.filter (·.isFavorite) ++ l.filter (fun a => !a.isFavorite) := by
  induction l with
  | nil => rfl
  | cons a l ih =>
    show insertBy favLe a (sortBy favLe l) = _
    rw [ih]
    by_cases ha : a.isFavorite = true
    · have : insertBy favLe a (l.filter (·.isFavorite) ++ l.filter (fun a => !a.isFavorite)) =
          a :: (l.filter (·.isFavorite) ++ l.filter (fun a => !a.isFavorite)) := by
        cases h : l.filter (·.isFavorite) ++ l.filter (fun a => !a.isFavorite) with
        | nil => simp [insertBy]
        | cons x xs => simp [insertBy, favLe, ha]
      rw [this]
      simp [List.filter, ha]
    · have ha' : a.isFavorite = false := Bool.eq_false_iff.mpr ha
      rw [insertBy_favLe_nonfav ha'
        (fun b hb => (List.mem_filter.mp hb).2)
        (fun b hb => by
          have := (List.mem_filter.mp hb).2
          simpa using this)]
      simp [List.filter, ha']

/-! ### Availability and overlap characterizations -/

theorem areIntervalsOverlapping_comm (aS aE bS bE : Int) :
    areIntervalsOverlapping aS aE bS bE = areIntervalsOverlapping bS bE aS aE := by
  simp only [areIntervalsOverlapping]
  rw [Bool.and_comm]

theorem isApartmentAvailable_iff {bks : List Booking} {s e : Int} {a : Apartment} :
    isApartmentAvailable bks s e a = true ↔
      ∀ b ∈ bks, b.apartmentId = some a.id →
        areIntervalsOverlapping b.checkIn b.checkOut s e = false := by
  simp only [isApartmentAvailable, Bool.not_eq_true', List.any_eq_false,
    List.mem_filter, bookingOverlapsRange, beq_iff_eq, and_imp]
  constructor
  · intro h b hb hid
    exact Bool.eq_false_iff.mpr (h b hb hid)
  · intro h b hb hid
    exact Bool.eq_false_iff.mp (h b hb hid)

theorem isApartmentAvailable_eq_false_iff {bks : List Booking} {s e : Int}
    {a : Apartment} :
    isApartmentAvailable bks s e a = false ↔
      ∃ b ∈ bks, b.apartmentId = some a.id ∧
        areIntervalsOverlapping b.checkIn b.checkOut s e = true := by
  rw [← Bool.not_eq_true, Bool.not_eq_true]
  rw [Bool.eq_false_iff, Ne, isApartmentAvailable_iff]
  push_neg
  constructor
  · rintro ⟨b, hb, hid, hov⟩
    exact ⟨b, hb, hid, Bool.of_not_eq_false hov⟩
  · rintro ⟨b, hb, hid, hov⟩
    exact ⟨b, hb, hid, by simp [hov]⟩

theorem mem_getAvailableApartments {apts : List Apartment} {bks : List Booking}
    {s e : Int} {a : Apartment} :
    a ∈ getAvailableApartments apts bks s e ↔
      a ∈ apts ∧ isApartmentAvailable bks s e a = true := by
  rw [getAvailableApartments, mem_sortBy, List.mem_filter]

/-! ### Facts about the assignment step -/

theorem assignBooking_id (b : Booking) (i aptId : String) :
    (if b.id == i then { b with apartmentId := some aptId } else b).id = b.id := by
  split <;> rfl

theorem assignBooking_map_core (bks : List Booking) (i aptId : String) :
    (assignBooking bks i aptId).map bookingCore = bks.map bookingCore := by
  simp only [assignBooking, List.map_map]
  refine List.map_congr_left (fun b _ => ?_)
  simp only [Function.comp_apply]
  split <;> rfl

theorem mem_assignBooking_of_ne {bks : List Booking} {d : Booking} {i aptId : String}
    (hd : d ∈ bks) (hne : d.id ≠ i) : d ∈ assignBooking bks i aptId := by
  have : (if d.id == i then { d with apartmentId := some aptId } else d) = d := by
    simp [hne]
  exact this ▸ List.mem_map_of_mem _ hd

theorem mem_assignBooking_self {bks : List Booking} {d : Booking} {aptId : String}
    (hd : d ∈ bks) : { d with apartmentId := some aptId } ∈ assignBooking bks d.id aptId := by
  have : (if d.id == d.id then { d with apartmentId := some aptId } else d) =
      { d with apartmentId := some aptId } := by simp
  exact this ▸ List.mem_map_of_mem _ hd

/-- Two bookings of a list whose id projection is duplicate-free agree whenever
their ids agree. -/
theorem eq_of_mem_of_id_eq {bks : List Booking} (hnd : (bks.map (·.id)).Nodup)
    {b c : Booking} (hb : b ∈ bks) (hc : c ∈ bks) (h : b.id = c.id) : b = c :=
  List.inj_on_of_nodup_map hnd hb hc h

theorem autoAssignStep_core (apts : List Apartment) (st : AssignResult) (b : Booking) :
    (autoAssignStep apts st b).bookings.map bookingCore = st.bookings.map bookingCore := by
  rcases h : getAvailableApartments apts st.bookings b.checkIn b.checkOut with _ | ⟨first, rest⟩
  · simp [autoAssignStep, h]
  · simp [autoAssignStep, h, assignBooking_map_core]

/-- One auto-assign iteration introduces no double-booking that was not
already present in the original list: when a booking is assigned, the chosen
apartment passed the availability check against the current list, which
already contains every earlier assignment of the batch. -/
theorem autoAssignStep_preserves (apts : List Apartment) (bks0 : List Booking)
    (hnd : (bks0.map (·.id)).Nodup) (b : Booking) (hb : b ∈ bks0)
    (st : AssignResult)
    (hcore : st.bookings.map bookingCore = bks0.map bookingCore)
    (hphi : NoNewConflicts bks0 st.bookings) :
    NoNewConflicts bks0 (autoAssignStep apts st b).bookings := by
  rcases h : getAvailableApartments apts st.bookings b.checkIn b.checkOut with _ | ⟨first, rest⟩
  · simpa [autoAssignStep, h] using hphi
  · have htmem : (((first :: rest).find? (fun ap => ap.isFavorite)).getD first)
        ∈ getAvailableApartments apts st.bookings b.checkIn b.checkOut := by
      rw [h]
      rcases hf : (first :: rest).find? (fun ap => ap.isFavorite) with _ | f
      · simp [hf]
      · simp only [hf, Option.getD_some]
        exact List.mem_of_find?_eq_some hf
    have havail : isApartmentAvailable st.bookings b.checkIn b.checkOut
        (((first :: rest).find? (fun ap => ap.isFavorite)).getD first) = true :=
      (mem_getAvailableApartments.mp htmem).2
    have hbooks : (autoAssignStep apts st b).bookings =
        assignBooking st.bookings b.id
          ((((first :: rest).find? (fun ap => ap.isFavorite)).getD first)).id := by
      simp [autoAssignStep, h]
    rw [hbooks]
    set tgt := (((first :: rest).find? (fun ap => ap.isFavorite)).getD first) with htgt
    -- the window of any booking of the current list that carries `b`'s id is
    -- `b`'s own window
    have hwin : ∀ c ∈ st.bookings, c.id = b.id →
        c.checkIn = b.checkIn ∧ c.checkOut = b.checkOut := by
      intro c hc hcid
      have hmem : bookingCore c ∈ bks0.map bookingCore := by
        rw [← hcore]; exact List.mem_map_of_mem _ hc
      rcases List.mem_map.mp hmem with ⟨c0, hc0, hcoreeq⟩
      have hc0c : c0.id = c.id ∧ c0.checkIn = c.checkIn ∧ c0.checkOut = c.checkOut := by
        simp only [bookingCore, Prod.mk.injEq] at hcoreeq
        exact ⟨hcoreeq.1, hcoreeq.2.2.1, hcoreeq.2.2.2.1⟩
      have hc0b : c0 = b := eq_of_mem_of_id_eq hnd hc0 hb (by rw [hc0c.1, hcid])
      rw [← hc0c.2.1, ← hc0c.2.2, hc0b]
      exact ⟨rfl, rfl⟩
    intro x b1 b2 hb1 hb2 hne hx1 hx2 hov
    rcases List.mem_map.mp hb1 with ⟨c1, hc1, hfc1⟩
    rcases List.mem_map.mp hb2 with ⟨c2, hc2, hfc2⟩
    have hid1 : b1.id = c1.id := by rw [← hfc1]; exact assignBooking_id c1 b.id tgt.id
    have hid2 : b2.id = c2.id := by rw [← hfc2]; exact assignBooking_id c2 b.id tgt.id
    by_cases h1 : c1.id = b.id <;> by_cases h2 : c2.id = b.id
    · exact absurd (by rw [hid1, hid2, h1, h2]) hne
    · -- `b1` is the newly assigned booking, `b2` was untouched
      exfalso
      have hb1eq : b1 = { c1 with apartmentId := some tgt.id } := by
        rw [← hfc1]; simp [h1]
      have hb2eq : b2 = c2 := by
        rw [← hfc2]; simp [h2]
      have hx : tgt.id = x := by
        have := hx1; rw [hb1eq] at this; simpa using this
      have hc2apt : c2.apartmentId = some tgt.id := by
        rw [← hb2eq, hx2, hx]
      have hnov := isApartmentAvailable_iff.mp havail c2 hc2 hc2apt
      have hw := hwin c1 hc1 h1
      have hov2 : areIntervalsOverlapping c2.checkIn c2.checkOut b.checkIn b.checkOut = true := by
        rw [areIntervalsOverlapping_comm, ← hw.1, ← hw.2]
        have := hov; rw [hb1eq, hb2eq] at this; simpa using this
      rw [hnov] at hov2
      exact Bool.false_ne_true hov2
    · -- `b2` is the newly assigned booking, `b1` was untouched
      exfalso
      have hb2eq : b2 = { c2 with apartmentId := some tgt.id } := by
        rw [← hfc2]; simp [h2]
      have hb1eq : b1 = c1 := by
        rw [← hfc1]; simp [h1]
      have hx : tgt.id = x := by
        have := hx2; rw [hb2eq] at this; simpa using this
      have hc1apt : c1.apartmentId = some tgt.id := by
        rw [← hb1eq, hx1, hx]
      have hnov := isApartmentAvailable_iff.mp havail c1 hc1 hc1apt
      have hw := hwin c2 hc2 h2
      have hov2 : areIntervalsOverlapping c1.checkIn c1.checkOut b.checkIn b.checkOut = true := by
        rw [← hw.1, ← hw.2]
        have := hov; rw [hb1eq, hb2eq] at this; simpa using this
      rw [hnov] at hov2
      exact Bool.false_ne_true hov2
    · -- neither booking was touched: delegate to the incoming invariant
      have hb1eq : b1 = c1 := by rw [← hfc1]; simp [h1]
      have hb2eq : b2 = c2 := by rw [← hfc2]; simp [h2]
      exact hphi x b1 b2 (hb1eq ▸ hc1) (hb2eq ▸ hc2) hne hx1 hx2 hov

theorem autoAssign_foldl_preserves (apts : List Apartment) (bks0 : List Booking)
    (hnd : (bks0.map (·.id)).Nodup) :
    ∀ (batch : List Booking) (st : AssignResult),
      (∀ c ∈ batch, c ∈ bks0) →
      st.bookings.map bookingCore = bks0.map bookingCore →
      NoNewConflicts bks0 st.bookings →
      (batch.foldl (autoAssignStep apts) st).bookings.map bookingCore = bks0.map bookingCore
        ∧ NoNewConflicts bks0 (batch.foldl (autoAssignStep apts) st).bookings := by
  intro batch
  induction batch with
  | nil => intro st _ hcore hphi; exact ⟨hcore, hphi⟩
  | cons b bs ih =>
    intro st hmem hcore hphi
    simp only [List.foldl_cons]
    exact ih (autoAssignStep apts st b)
      (fun c hc => hmem c (by simp [hc]))
      ((autoAssignStep_core apts st b).trans hcore)
      (autoAssignStep_preserves apts bks0 hnd b (hmem b (by simp)) st hcore hphi)

/-- A full auto-assign run introduces no double-booking that was not already
present in the input booking list. -/
theorem autoAssign_no_new_conflicts (apts : List Apartment) (bks0 : List Booking)
    (hnd : (bks0.map (·.id)).Nodup) :
    NoNewConflicts bks0 (autoAssignBookings apts bks0).bookings := by
  have h := autoAssign_foldl_preserves apts bks0 hnd
    (sortBy checkInLe (unassignedFilter bks0)) ⟨bks0, 0, 0⟩
    (fun c hc => (List.mem_filter.mp (mem_sortBy.mp hc)).1)
    rfl
    (fun x b1 b2 hb1 hb2 _ hx1 hx2 hov => ⟨b1, hb1, b2, hb2, rfl, rfl, hx1, hx2, hov⟩)
  exact h.2

theorem sortBy_checkIn_pair {b1 b2 : Booking} (h : b1.checkIn ≤ b2.checkIn) :
    sortBy checkInLe [b1, b2] = [b1, b2] := by
  simp [sortBy, insertBy, checkInLe, h]

theorem find?_getD_singleton (p : α → Bool) (a : α) :
    ((([a] : List α).find? p).getD a) = a := by
  cases h : p a <;> simp [List.find?, h]

theorem unassignedFilter_spec {bks : List Booking} {b : Booking}
    (h : b ∈ unassignedFilter bks) :
    b ∈ bks ∧ b.apartmentId = none ∧ b.temporaryApartment = none := by
  have h' := List.mem_filter.mp h
  have h2 := h'.2
  simp only [Bool.and_eq_true, beq_iff_eq] at h2
  exact ⟨h'.1, h2.1, h2.2⟩

/-- The greedy run on a batch of exactly two mutually overlapping unassigned
bookings that each fit only the apartment `A`: the earlier check-in is
assigned `A`, the other fails, and nothing else changes. -/
theorem autoAssign_two_bookings (apts : List Apartment) (A : Apartment)
    (b1 b2 : Booking) (bks : List Booking)
    (hnd : (bks.map (·.id)).Nodup)
    (hun : unassignedFilter bks = [b1, b2])
    (hord : b1.checkIn ≤ b2.checkIn)
    (hA1 : apts.filter (isApartmentAvailable bks b1.checkIn b1.checkOut) = [A])
    (hA2 : apts.filter (isApartmentAvailable bks b2.checkIn b2.checkOut) = [A])
    (hov : areIntervalsOverlapping b1.checkIn b1.checkOut b2.checkIn b2.checkOut = true) :
    autoAssignBookings apts bks = ⟨assignBooking bks b1.id A.id, 1, 1⟩ := by
  have hb1 := unassignedFilter_spec (hun ▸ (by simp : b1 ∈ [b1, b2]))
  have hb2 := unassignedFilter_spec (hun ▸ (by simp : b2 ∈ [b1, b2]))
  have hneid : b1.id ≠ b2.id := by
    have hsub : ((unassignedFilter bks).map (·.id)).Nodup :=
      hnd.sublist ((List.filter_sublist bks).map _)
    rw [hun] at hsub
    simpa using (List.nodup_cons.mp hsub).1
  have havail1 : getAvailableApartments apts bks b1.checkIn b1.checkOut = [A] := by
    rw [getAvailableApartments, hA1]; rfl
  have hstep1 : autoAssignStep apts ⟨bks, 0, 0⟩ b1 =
      ⟨assignBooking bks b1.id A.id, 1, 0⟩ := by
    simp only [autoAssignStep, havail1]
    cases hfA : A.isFavorite <;> simp [List.find?, hfA]
  have hfilter2 : apts.filter
      (isApartmentAvailable (assignBooking bks b1.id A.id) b2.checkIn b2.checkOut) = [] := by
    rw [List.filter_eq_nil_iff]
    intro ap hap
    rw [Bool.not_eq_true]
    by_cases hav : isApartmentAvailable bks b2.checkIn b2.checkOut ap = true
    · have hapA : ap = A := by
        have : ap ∈ apts.filter (isApartmentAvailable bks b2.checkIn b2.checkOut) :=
          List.mem_filter.mpr ⟨hap, hav⟩
        rw [hA2] at this
        simpa using this
      subst hapA
      refine isApartmentAvailable_eq_false_iff.mpr
        ⟨{ b1 with apartmentId := some ap.id }, mem_assignBooking_self hb1.1, rfl, ?_⟩
      simpa using hov
    · have hav' := Bool.eq_false_iff.mpr hav
      rcases isApartmentAvailable_eq_false_iff.mp hav' with ⟨d, hd, hdid, hdov⟩
      have hdne : d.id ≠ b1.id := by
        intro hcontra
        have : d = b1 := eq_of_mem_of_id_eq hnd hd hb1.1 hcontra
        rw [this, hb1.2.1] at hdid
        exact Option.noConfusion hdid
      exact isApartmentAvailable_eq_false_iff.mpr
        ⟨d, mem_assignBooking_of_ne hd hdne, hdid, hdov⟩
  have havail2 : getAvailableApartments apts (assignBooking bks b1.id A.id)
      b2.checkIn b2.checkOut = [] := by
    rw [getAvailableApartments, hfilter2]; rfl
  have hstep2 : autoAssignStep apts ⟨assignBooking bks b1.id A.id, 1, 0⟩ b2 =
      ⟨assignBooking bks b1.id A.id, 1, 1⟩ := by
    simp [autoAssignStep, havail2]
  rw [autoAssignBookings, hun, sortBy_checkIn_pair hord]
  simp only [List.foldl_cons, List.foldl_nil, hstep1, hstep2]

theorem foldl_add_eq_sum (f : Int → Nat) (l : List Int) :
    ∀ n : Nat, l.foldl (fun acc day => acc + f day) n = n + (l.map f).sum := by
  induction l with
  | nil => intro n; simp
  | cons d ds ih =>
    intro n
    simp only [List.foldl_cons, List.map_cons, List.sum_cons, ih]
    omega

/-- The batch route's `continue` makes a batch behave exactly like the batch
restricted to its valid items: invalid items are silently dropped. -/
theorem batchCreateBookings_eq_filter (st : ServerState) (items : List BatchItem) :
    batchCreateBookings st items
      = batchCreateBookings st (items.filter (fun it => decide (it.checkIn < it.checkOut))) := by
  rw [batchCreateBookings, batchCreateBookings]
  generalize (st, ([] : List String)) = acc
  induction items generalizing acc with
  | nil => rfl
  | cons it its ih =>
    by_cases h : it.checkOut ≤ it.checkIn
    · have hv : decide (it.checkIn < it.checkOut) = false := by
        simp only [decide_eq_false_iff_not, not_lt]; omega
      simp only [List.filter_cons, hv, Bool.false_eq_true, if_false, List.foldl_cons,
        if_pos h]
      exact ih acc
    · have hv : decide (it.checkIn < it.checkOut) = true := by
        simp only [decide_eq_true_eq]; omega
      simp only [List.filter_cons, hv, if_true, List.foldl_cons, if_neg h]
      exact ih _

theorem dayBookingsCount_map_assignment (bks : List Booking) (day : Int)
    (f g : Booking → Option String) :
    dayBookingsCount
        (bks.map (fun b => { b with apartmentId := f b, temporaryApartment := g b })) day
      = dayBookingsCount bks day := by
  simp only [dayBookingsCount, List.filter_map, List.length_map]
  congr 1

/-! ### The claims -/

/-- C1.  The spec claims every manual single assignment (a booking update
setting `apartmentId`) is rejected with an `AssignmentConflict` when another
booking on that apartment overlaps, leaving `apartmentId` unchanged.  The
code disagrees: `PUT /bookings/:id` runs its overlap query only inside the
`if (updates.check_in || updates.check_out)` branch, so an update that
supplies only `apartment_id` — exactly what `handleConfirmAssign` sends — is
committed with no conflict check.  Below, booking `b2` is assigned apartment
`"A"` although booking `b1` occupies `"A"` over the identical interval, both
through the raw route and through the frontend assignment handler. -/
theorem claim_C1_manual_assignment_unchecked :
    updateBookingRoute
        ⟨[⟨"A", "Apt1", false⟩],
         [⟨"b1", "guest1", 0, 10, some "A", none⟩, ⟨"b2", "guest2", 0, 10, none, none⟩]⟩
        "b2" { apartmentId := some (some "A") }
      = .ok ⟨[⟨"A", "Apt1", false⟩],
             [⟨"b1", "guest1", 0, 10, some "A", none⟩, ⟨"b2", "guest2", 0, 10, some "A", none⟩]⟩
    ∧ handleConfirmAssignApartment
        ⟨[⟨"A", "Apt1", false⟩],
         [⟨"b1", "guest1", 0, 10, some "A", none⟩, ⟨"b2", "guest2", 0, 10, none, none⟩]⟩
        "b2" "A"
      = .ok ⟨[⟨"A", "Apt1", false⟩],
             [⟨"b1", "guest1", 0, 10, some "A", none⟩, ⟨"b2", "guest2", 0, 10, some "A", none⟩]⟩
    ∧ areIntervalsOverlapping 0 10 0 10 = true := by
  exact ⟨rfl, rfl, rfl⟩

/-- C2.  The spec's core invariant says no sequence of accepted operations may
leave two bookings of one apartment with overlapping `[checkIn, checkOut)`
intervals.  The code violates it twice over: (a) `POST /bookings` accepts a
booking whose interval strictly contains an existing one, because its SQL
predicate misses that case; (b) `POST /bookings/batch` inserts apartment-
assigned bookings with no overlap check at all.  Both runs below end in a
state with two overlapping bookings assigned to apartment `"A"`. -/
theorem claim_C2_no_double_booking_violated :
    createBooking ⟨[⟨"A", "Apt1", false⟩], []⟩ "c1" "guest1" 2 3 (some "A") none
      = .ok ⟨[⟨"A", "Apt1", false⟩], [⟨"c1", "guest1", 2, 3, some "A", none⟩]⟩
    ∧ createBooking ⟨[⟨"A", "Apt1", false⟩], [⟨"c1", "guest1", 2, 3, some "A", none⟩]⟩
        "c2" "guest2" 1 4 (some "A") none
      = .ok ⟨[⟨"A", "Apt1", false⟩],
             [⟨"c1", "guest1", 2, 3, some "A", none⟩, ⟨"c2", "guest2", 1, 4, some "A", none⟩]⟩
    ∧ areIntervalsOverlapping 2 3 1 4 = true
    ∧ batchCreateBookings ⟨[⟨"A", "Apt1", false⟩], []⟩
        [⟨"d1", "guest1", 0, 10, some "A"⟩, ⟨"d2", "guest2", 0, 10, some "A"⟩]
      = (⟨[⟨"A", "Apt1", false⟩],
          [⟨"d1", "guest1", 0, 10, some "A", none⟩, ⟨"d2", "guest2", 0, 10, some "A", none⟩]⟩,
         ["d1", "d2"])
    ∧ areIntervalsOverlapping 0 10 0 10 = true := by
  exact ⟨rfl, rfl, rfl, rfl, rfl⟩

/-- C4.  The spec describes the conflict predicate of the create/update routes
as true iff `existing.checkIn < end AND start < existing.checkOut`.  The SQL
actually used, `(ci <= s AND co > s) OR (ci < e AND co >= e)`, is weaker: it
misses every overlap in which the proposed interval strictly contains the
existing one, e.g. existing `[2, 3)` against proposed `[1, 4)`.  The final
conjunct refutes the claimed equivalence outright. -/
theorem claim_C4_sql_conflict_not_overlap :
    sqlConflict 2 3 1 4 = false
    ∧ areIntervalsOverlapping 2 3 1 4 = true
    ∧ ((2 : Int) < 3 ∧ (1 : Int) < 4)
    ∧ ¬ (∀ ci co s e : Int, ci < co → s < e →
          (sqlConflict ci co s e = true ↔ areIntervalsOverlapping ci co s e = true)) := by
  refine ⟨rfl, rfl, by omega, ?_⟩
  intro h
  have := (h 2 3 1 4 (by omega) (by omega)).mpr (by decide)
  exact absurd this (by decide)

/-- C8.  The spec claims assigning an apartment clears `temporaryApartment`
and vice versa, so no booking ever carries both.  The store's `updateBooking`
drops every `undefined` field from the request, so `handleConfirmAssign`'s
`apartmentId: undefined` / `temporaryApartment: undefined` "clears" never
reach the server: assigning an apartment to a booking holding a temporary
apartment (and conversely) yields a booking with both fields set. -/
theorem claim_C8_both_assignments_set :
    handleConfirmAssignApartment
        ⟨[], [⟨"b1", "guest", 0, 10, none, some "Hotel Central"⟩]⟩ "b1" "A1"
      = .ok ⟨[], [⟨"b1", "guest", 0, 10, some "A1", some "Hotel Central"⟩]⟩
    ∧ handleConfirmAssignTemporary
        ⟨[], [⟨"b2", "guest", 0, 10, some "A1", none⟩]⟩ "b2" "Hotel Central"
      = .ok ⟨[], [⟨"b2", "guest", 0, 10, some "A1", some "Hotel Central"⟩]⟩ := by
  exact ⟨rfl, rfl⟩

/-- C5.  Boundary non-conflict: for any `t0 < t1 < t2` the intervals
`[t0, t1)` and `[t1, t2)` are treated as disjoint by the frontend predicate
(date-fns default options) and by the server's SQL predicate, and an
availability query starting exactly at an existing booking's checkout still
offers that apartment. -/
theorem claim_C5_boundary_non_conflict (t0 t1 t2 : Int)
    (h01 : t0 < t1) (h12 : t1 < t2) :
    areIntervalsOverlapping t0 t1 t1 t2 = false
    ∧ sqlConflict t0 t1 t1 t2 = false
    ∧ ∀ (apts : List Apartment) (bks : List Booking) (a : Apartment),
        a ∈ apts →
        (∀ b ∈ bks, b.apartmentId = some a.id → b.checkIn = t0 ∧ b.checkOut = t1) →
        a ∈ getAvailableApartments apts bks t1 t2 := by
  have hov : areIntervalsOverlapping t0 t1 t1 t2 = false := by
    rw [Bool.eq_false_iff]
    simp only [areIntervalsOverlapping, Ne, Bool.and_eq_true, decide_eq_true_eq, not_and]
    intro _
    rw [min_eq_left (le_of_lt h12), max_eq_right (le_of_lt h01)]
    omega
  refine ⟨hov, ?_, ?_⟩
  · rw [Bool.eq_false_iff]
    simp only [sqlConflict, Ne, Bool.or_eq_true, Bool.and_eq_true, decide_eq_true_eq,
      not_or, not_and]
    omega
  · intro apts bks a ha hbk
    refine mem_getAvailableApartments.mpr ⟨ha, isApartmentAvailable_iff.mpr ?_⟩
    intro b hb hid
    rcases hbk b hb hid with ⟨hci, hco⟩
    rw [hci, hco]
    exact hov

/-- Witness for C5 at `t0 = 0`, `t1 = 1`, `t2 = 2`: the booking `[0, 1)` on
apartment `"A"` does not block an availability query for `[1, 2)`. -/
theorem claim_C5_boundary_non_conflict_witness :
    ((0 : Int) < 1 ∧ (1 : Int) < 2)
    ∧ areIntervalsOverlapping 0 1 1 2 = false
    ∧ sqlConflict 0 1 1 2 = false
    ∧ (⟨"A", "Apt1", false⟩ : Apartment) ∈ getAvailableApartments
        [⟨"A", "Apt1", false⟩] [⟨"b", "guest", 0, 1, some "A", none⟩] 1 2 := by
  have h := claim_C5_boundary_non_conflict 0 1 2 (by omega) (by omega)
  exact ⟨⟨by omega, by omega⟩, h.1, h.2.1,
    h.2.2 [⟨"A", "Apt1", false⟩] [⟨"b", "guest", 0, 1, some "A", none⟩]
      ⟨"A", "Apt1", false⟩ (by simp) (by decide)⟩

/-- C6 counterexample.  The claim says `checkOut <= checkIn` is rejected by
every operation, that the availability query fails with `InvalidRange`, and
that batch create does not silently drop such bookings.  In the code the
availability route performs no range check at all and returns an ordinary
result for the inverted range `[5, 3)`, and the batch route silently skips an
invalid booking, reporting success with an empty created list and leaving the
state untouched. -/
theorem claim_C6_counterexample :
    serverAvailable ⟨[⟨"A", "Apt1", false⟩], []⟩ 5 3 = [⟨"A", "Apt1", false⟩]
    ∧ batchCreateBookings ⟨[⟨"A", "Apt1", false⟩], []⟩ [⟨"x", "guest", 9, 4, none⟩]
        = (⟨[⟨"A", "Apt1", false⟩], []⟩, []) := by
  exact ⟨rfl, rfl⟩

/-- C6 amended.  Single create rejects `checkOut <= checkIn` before touching
the booking list; update rejects it whenever a date field is supplied; the
batch route silently behaves as if the invalid items were absent; and the
availability route never fails, returning a plain selection from the stored
apartments for any range. -/
theorem claim_C6_invalid_range_amended :
    (∀ (st : ServerState) (i g : String) (ci co : Int) (aptId tmp : Option String),
        co ≤ ci → createBooking st i g ci co aptId tmp = .error .invalidDates)
    ∧ (∀ (st : ServerState) (i : String) (u : BookingUpdate) (old : Booking),
        st.bookings.find? (fun b => b.id == i) = some old →
        (u.checkIn.isSome || u.checkOut.isSome) = true →
        u.checkOut.getD old.checkOut ≤ u.checkIn.getD old.checkIn →
        updateBookingRoute st i u = .error .invalidDates)
    ∧ (∀ (st : ServerState) (items : List BatchItem),
        batchCreateBookings st items
          = batchCreateBookings st (items.filter (fun it => decide (it.checkIn < it.checkOut))))
    ∧ (∀ (st : ServerState) (ci co : Int) (a : Apartment),
        a ∈ serverAvailable st ci co → a ∈ st.apartments) := by
  refine ⟨?_, ?_, batchCreateBookings_eq_filter, ?_⟩
  · intro st i g ci co aptId tmp h
    rw [createBooking.eq_def, if_pos h]
  · intro st i u old hfind hpresent hdates
    rw [updateBookingRoute, hfind]
    simp only [hpresent, if_true, if_pos hdates]
  · intro st ci co a ha
    exact mem_sortBy.mp (List.mem_filter.mp ha).1

/-- Witness for C6's amended statement on concrete data: an inverted-range
create is rejected, an inverted-range date update is rejected, a mixed batch
equals the batch of its valid items, and the availability result stays within
the stored apartments. -/
theorem claim_C6_invalid_range_amended_witness :
    ((5 : Int) ≤ 5
      ∧ ([(⟨"b1", "guest", 0, 10, none, none⟩ : Booking)].find? (fun b => b.id == "b1")
          = some ⟨"b1", "guest", 0, 10, none, none⟩)
      ∧ (((some (7 : Int)).isSome || (some (5 : Int)).isSome) = true)
      ∧ ((5 : Int) ≤ 7))
    ∧ createBooking ⟨[], []⟩ "c" "guest" 5 5 none none = .error .invalidDates
    ∧ updateBookingRoute ⟨[], [⟨"b1", "guest", 0, 10, none, none⟩]⟩ "b1"
        { checkIn := some 7, checkOut := some 5 } = .error .invalidDates
    ∧ batchCreateBookings ⟨[], []⟩ [⟨"x", "guest", 9, 4, none⟩]
        = batchCreateBookings ⟨[], []⟩
            ([⟨"x", "guest", 9, 4, none⟩].filter (fun it => decide (it.checkIn < it.checkOut)))
    ∧ ((⟨"A", "Apt1", false⟩ : Apartment) ∈ serverAvailable ⟨[⟨"A", "Apt1", false⟩], []⟩ 0 1 →
        (⟨"A", "Apt1", false⟩ : Apartment) ∈ [(⟨"A", "Apt1", false⟩ : Apartment)]) := by
  refine ⟨⟨by omega, rfl, rfl, by omega⟩, ?_, ?_, ?_, ?_⟩
  · exact claim_C6_invalid_range_amended.1 ⟨[], []⟩ "c" "guest" 5 5 none none (by omega)
  · exact claim_C6_invalid_range_amended.2.1 ⟨[], [⟨"b1", "guest", 0, 10, none, none⟩]⟩
      "b1" { checkIn := some 7, checkOut := some 5 } ⟨"b1", "guest", 0, 10, none, none⟩
      rfl rfl (by decide)
  · exact claim_C6_invalid_range_amended.2.2.1 ⟨[], []⟩ [⟨"x", "guest", 9, 4, none⟩]
  · exact fun h => claim_C6_invalid_range_amended.2.2.2 ⟨[⟨"A", "Apt1", false⟩], []⟩ 0 1
      ⟨"A", "Apt1", false⟩ h

/-- C7.  The store's `getAvailableApartments` returns exactly the stable
partition of the available apartments by `isFavorite`: every available
favorite precedes every available non-favorite and each block keeps the
apartments' relative input order. -/
theorem claim_C7_favorites_first_stable (apts : List Apartment) (bks : List Booking)
    (s e : Int) :
    getAvailableApartments apts bks s e =
      (apts.filter (isApartmentAvailable bks s e)).filter (·.isFavorite)
        ++ (apts.filter (isApartmentAvailable bks s e)).filter (fun a => !a.isFavorite) :=
  sortBy_favLe_partition _

/-- C9 counterexample.  The claim says a booking's checkout day is never
counted as occupied.  The code's day filter is
`day >= bookingStart && day <= bookingEnd`, so the booking `[0, 5]` IS counted
on day `5`, although the claimed half-open containment matches nothing. -/
theorem claim_C9_counterexample :
    dayBookingsCount [⟨"k", "guest", 0, 5, none, none⟩] 5 = 1
    ∧ List.countP (fun b => decide (b.checkIn ≤ 5 ∧ 5 < b.checkOut))
        [(⟨"k", "guest", 0, 5, none, none⟩ : Booking)] = 0 := by
  exact ⟨rfl, rfl⟩

/-- C9 amended.  The per-day count of the best-dates heuristic uses CLOSED
containment `checkIn <= day AND day <= checkOut`: it equals the number of
bookings whose closed interval contains the day, a booking is counted on its
checkout day whenever that day is in range, and the period total is the sum
of the per-day counts. -/
theorem claim_C9_closed_containment_amended (bks : List Booking) (day : Int) :
    dayBookingsCount bks day
        = bks.countP (fun b => decide (b.checkIn ≤ day ∧ day ≤ b.checkOut))
    ∧ (∀ b ∈ bks, b.checkIn ≤ day → day ≤ b.checkOut → 0 < dayBookingsCount bks day)
    ∧ ∀ stayDays : List Int,
        totalOccupancy bks stayDays = (stayDays.map (dayBookingsCount bks)).sum := by
  refine ⟨?_, ?_, ?_⟩
  · rw [dayBookingsCount, List.countP_eq_length_filter]
    congr 1
    exact List.filter_congr (fun b _ => by simp)
  · intro b hb h1 h2
    have hmem : b ∈ bks.filter (fun b => decide (b.checkIn ≤ day) && decide (day ≤ b.checkOut)) :=
      List.mem_filter.mpr ⟨hb, by simp [h1, h2]⟩
    exact List.length_pos.mpr (List.ne_nil_of_mem hmem)
  · intro stayDays
    rw [totalOccupancy, foldl_add_eq_sum]
    omega

/-- Witness for C9's amended statement: on the single booking `[0, 5]` and
day `5` the count is the closed-containment count `1`, positive, and the
two-day total is the sum of the day counts. -/
theorem claim_C9_closed_containment_amended_witness :
    dayBookingsCount [(⟨"k", "guest", 0, 5, none, none⟩ : Booking)] 5
        = List.countP (fun b => decide (b.checkIn ≤ 5 ∧ 5 ≤ b.checkOut))
            [(⟨"k", "guest", 0, 5, none, none⟩ : Booking)]
    ∧ ((⟨"k", "guest", 0, 5, none, none⟩ : Booking) ∈
          [(⟨"k", "guest", 0, 5, none, none⟩ : Booking)]
        ∧ (0 : Int) ≤ 5 ∧ (5 : Int) ≤ 5
        ∧ 0 < dayBookingsCount [(⟨"k", "guest", 0, 5, none, none⟩ : Booking)] 5)
    ∧ totalOccupancy [(⟨"k", "guest", 0, 5, none, none⟩ : Booking)] [4, 5]
        = ([4, 5].map (dayBookingsCount [(⟨"k", "guest", 0, 5, none, none⟩ : Booking)])).sum := by
  have h := claim_C9_closed_containment_amended
    [(⟨"k", "guest", 0, 5, none, none⟩ : Booking)] 5
  refine ⟨h.1, ⟨by simp, by omega, by omega, ?_⟩, h.2.2 [4, 5]⟩
  exact h.2.1 ⟨"k", "guest", 0, 5, none, none⟩ (by simp) (by decide) (by decide)

/-- C10.  The best-dates occupancy counts bookings by date range only:
modifying every booking's `apartmentId` and `temporaryApartment` in any way
whatsoever changes neither a day's count nor a period's total. -/
theorem claim_C10_occupancy_ignores_assignment (bks : List Booking) (day : Int)
    (f g : Booking → Option String) (stayDays : List Int) :
    dayBookingsCount
        (bks.map (fun b => { b with apartmentId := f b, temporaryApartment := g b })) day
      = dayBookingsCount bks day
    ∧ totalOccupancy
        (bks.map (fun b => { b with apartmentId := f b, temporaryApartment := g b })) stayDays
      = totalOccupancy bks stayDays := by
  refine ⟨dayBookingsCount_map_assignment bks day f g, ?_⟩
  rw [totalOccupancy, totalOccupancy, foldl_add_eq_sum, foldl_add_eq_sum]
  have hmap : stayDays.map (dayBookingsCount
        (bks.map (fun b => { b with apartmentId := f b, temporaryApartment := g b })))
      = stayDays.map (dayBookingsCount bks) :=
    List.map_congr_left (fun d _ => dayBookingsCount_map_assignment bks d f g)
  rw [hmap]

/-- C3.  Batch consistency of the auto-assigner.  First conjunct: the batch is
processed in ascending check-in order, ties keeping input order (the sort is
a permutation, sorted by `checkIn`, and stable).  Second conjunct: because
each iteration recomputes availability against the booking list that already
contains the batch's earlier assignments, two bookings that start the batch
unassigned are never left assigned to the same apartment with overlapping
windows.  Third and fourth conjuncts: a batch of exactly two mutually
overlapping unassigned bookings, each fitting only apartment `A`, assigns the
earlier check-in to `A` and fails the other, changing nothing else. -/
theorem claim_C3_batch_consistency (apts : List Apartment) (A : Apartment)
    (b1 b2 : Booking) (bks : List Booking)
    (hnd : (bks.map (·.id)).Nodup)
    (hun : unassignedFilter bks = [b1, b2])
    (hord : b1.checkIn ≤ b2.checkIn)
    (hA1 : apts.filter (isApartmentAvailable bks b1.checkIn b1.checkOut) = [A])
    (hA2 : apts.filter (isApartmentAvailable bks b2.checkIn b2.checkOut) = [A])
    (hov : areIntervalsOverlapping b1.checkIn b1.checkOut b2.checkIn b2.checkOut = true) :
    (∀ l : List Booking,
        (sortBy checkInLe l).Pairwise (fun p q => p.checkIn ≤ q.checkIn)
        ∧ (∀ t : Int, (sortBy checkInLe l).filter (fun x => decide (x.checkIn = t))
              = l.filter (fun x => decide (x.checkIn = t)))
        ∧ List.Perm (sortBy checkInLe l) l)
    ∧ (∀ (apts2 : List Apartment) (bks2 : List Booking),
        (bks2.map (·.id)).Nodup →
        ∀ (x : String) (c1 c2 : Booking),
          c1 ∈ (autoAssignBookings apts2 bks2).bookings →
          c2 ∈ (autoAssignBookings apts2 bks2).bookings →
          c1.id ≠ c2.id →
          (∀ d ∈ bks2, d.id = c1.id → d.apartmentId = none) →
          c1.apartmentId = some x → c2.apartmentId = some x →
          areIntervalsOverlapping c1.checkIn c1.checkOut c2.checkIn c2.checkOut = true →
          False)
    ∧ autoAssignBookings apts bks = ⟨assignBooking bks b1.id A.id, 1, 1⟩
    ∧ (∀ c ∈ (autoAssignBookings apts bks).bookings,
        (c.id = b1.id → c.apartmentId = some A.id)
        ∧ (c.id = b2.id → c.apartmentId = none)) := by
  have hrun := autoAssign_two_bookings apts A b1 b2 bks hnd hun hord hA1 hA2 hov
  have hb1 := unassignedFilter_spec (hun ▸ (by simp : b1 ∈ [b1, b2]))
  have hb2 := unassignedFilter_spec (hun ▸ (by simp : b2 ∈ [b1, b2]))
  have hneid : b1.id ≠ b2.id := by
    have hsub : ((unassignedFilter bks).map (·.id)).Nodup :=
      hnd.sublist ((List.filter_sublist bks).map _)
    rw [hun] at hsub
    simpa using (List.nodup_cons.mp hsub).1
  refine ⟨?_, ?_, hrun, ?_⟩
  · intro l
    exact ⟨sortBy_checkIn_sorted l, sortBy_checkIn_stable l, sortBy_perm _ l⟩
  · intro apts2 bks2 hnd2 x c1 c2 hc1 hc2 hne hunasn hx1 hx2 hovc
    rcases autoAssign_no_new_conflicts apts2 bks2 hnd2 x c1 c2 hc1 hc2 hne hx1 hx2 hovc
      with ⟨w1, hw1, w2, hw2, hw1id, hw2id, hw1apt, _, _⟩
    have : w1.apartmentId = none := hunasn w1 hw1 hw1id
    rw [this] at hw1apt
    exact Option.noConfusion hw1apt
  · intro c hc
    rw [hrun] at hc
    rcases List.mem_map.mp hc with ⟨d, hd, hfd⟩
    constructor
    · intro hcid
      have hdid : d.id = b1.id := by
        rw [← hcid, ← hfd, assignBooking_id]
      have hdb1 : d = b1 := eq_of_mem_of_id_eq hnd hd hb1.1 hdid
      rw [← hfd, hdb1]
      simp
    · intro hcid
      have hdid : d.id = b2.id := by
        rw [← hcid, ← hfd, assignBooking_id]
      have hdb2 : d = b2 := eq_of_mem_of_id_eq hnd hd hb2.1 hdid
      have hne : ¬ (d.id == b1.id) = true := by
        rw [hdb2]
        simpa using fun hcontra => hneid hcontra.symm
      rw [← hfd, if_neg hne, hdb2]
      exact hb2.2.1

/-- Witness for C3 on two overlapping unassigned bookings `[0, 10)` and
`[5, 15)` with the single apartment `"A"`: the earlier one is assigned, the
later one fails. -/
theorem claim_C3_batch_consistency_witness :
    (([(⟨"b1", "g", 0, 10, none, none⟩ : Booking),
       (⟨"b2", "h", 5, 15, none, none⟩ : Booking)].map (·.id)).Nodup
      ∧ unassignedFilter [⟨"b1", "g", 0, 10, none, none⟩, ⟨"b2", "h", 5, 15, none, none⟩]
          = [⟨"b1", "g", 0, 10, none, none⟩, ⟨"b2", "h", 5, 15, none, none⟩]
      ∧ (Booking.checkIn ⟨"b1", "g", 0, 10, none, none⟩ : Int)
          ≤ Booking.checkIn ⟨"b2", "h", 5, 15, none, none⟩
      ∧ [(⟨"A", "Apt1", false⟩ : Apartment)].filter
          (isApartmentAvailable
            [⟨"b1", "g", 0, 10, none, none⟩, ⟨"b2", "h", 5, 15, none, none⟩] 0 10)
          = [⟨"A", "Apt1", false⟩]
      ∧ [(⟨"A", "Apt1", false⟩ : Apartment)].filter
          (isApartmentAvailable
            [⟨"b1", "g", 0, 10, none, none⟩, ⟨"b2", "h", 5, 15, none, none⟩] 5 15)
          = [⟨"A", "Apt1", false⟩]
      ∧ areIntervalsOverlapping 0 10 5 15 = true)
    ∧ autoAssignBookings [⟨"A", "Apt1", false⟩]
        [⟨"b1", "g", 0, 10, none, none⟩, ⟨"b2", "h", 5, 15, none, none⟩]
      = ⟨assignBooking
            [⟨"b1", "g", 0, 10, none, none⟩, ⟨"b2", "h", 5, 15, none, none⟩] "b1" "A",
         1, 1⟩ := by
  refine ⟨⟨by decide, by decide, by decide, by decide, by decide, by decide⟩, ?_⟩
  exact (claim_C3_batch_consistency [⟨"A", "Apt1", false⟩] ⟨"A", "Apt1", false⟩
    ⟨"b1", "g", 0, 10, none, none⟩ ⟨"b2", "h", 5, 15, none, none⟩
    [⟨"b1", "g", 0, 10, none, none⟩, ⟨"b2", "h", 5, 15, none, none⟩]
    (by decide) (by decide) (by decide) (by decide) (by decide) (by decide)).2.2.1

end DentalSuite
